import Mathlib

/-!
Verification development for the auto_blog content pipeline
(`src/filters/dedup.py`, `src/filters/relevance.py`, `src/filters/ranker.py`,
`src/llm/analyzer.py`, `src/llm/prompts.py`).

Python dictionaries holding content items are embedded as association lists
from string keys to a small value type.  Library calls that the repository
merely consumes (MD5 hashing, `difflib.SequenceMatcher.ratio`,
`datetime.strptime`, the LLM HTTP client, `json.loads`) are embedded as
explicit function parameters ("oracles"): every theorem quantifies over
them, so nothing is assumed about their behaviour beyond being functions.

The file is laid out as definitions first (the embedding of the source,
plus the concrete instances used by witnesses), then the theorems.
-/

namespace AutoBlog

/-! ### Dictionary model -/

/-- Values stored in a content-item mapping: strings, numbers
(modelled as rationals), or lists of strings. -/
inductive Val where
  | vStr : String → Val
  | vNum : ℚ → Val
  | vList : List String → Val
  deriving DecidableEq, Repr

/-- A Python dict with string keys, as an insertion-ordered association list. -/
abbrev Item := List (String × Val)

/-- Association-list lookup (first binding wins; a Python dict never holds a
key twice). -/
def lookupEntry {α : Type} : List (String × α) → String → Option α
  | [], _ => none
  | (k, v) :: rest, key => if k = key then some v else lookupEntry rest key

/-- Python `d[k] = v`: replace the binding in place if the key exists,
otherwise append it (insertion order is preserved). -/
def setEntry {α : Type} : List (String × α) → String → α → List (String × α)
  | [], key, v => [(key, v)]
  | (k, w) :: rest, key, v =>
      if k = key then (key, v) :: rest else (k, w) :: setEntry rest key v

/-- `item.get(k, dflt)` when the caller expects a string value.
Non-string values fall back to the default (items produced by the fetchers
hold strings under the keys read this way). -/
def getStr (it : Item) (k : String) (dflt : String) : String :=
  match lookupEntry it k with
  | some (.vStr s) => s
  | _ => dflt

/-- `item.get(k, dflt)` when the caller expects a numeric value. -/
def getNum (it : Item) (k : String) (dflt : ℚ) : ℚ :=
  match lookupEntry it k with
  | some (.vNum q) => q
  | _ => dflt

/-- Boolean membership in a list of strings (Python `x in seen`). -/
def strMem (x : String) : List String → Bool
  | [] => false
  | y :: rest => if y = x then true else strMem x rest

/-- Python `str.lower()` (ASCII case folding, which is all the pipeline's
keys and keywords use). -/
def lowerStr (s : String) : String := String.mk (s.data.map Char.toLower)

/-- Python `str.strip()`: whitespace removed from both ends. -/
def trimStr (s : String) : String :=
  String.mk (((s.data.dropWhile Char.isWhitespace).reverse.dropWhile
    Char.isWhitespace).reverse)

/-- Character-list prefix test. -/
def charsPrefix : List Char → List Char → Bool
  | [], _ => true
  | _ :: _, [] => false
  | c :: cs, h :: hs => if c = h then charsPrefix cs hs else false

/-- Character-list infix test. -/
def charsInfix (needle : List Char) : List Char → Bool
  | [] => needle.isEmpty
  | h :: hs => charsPrefix needle (h :: hs) || charsInfix needle hs

/-- Python `needle in hay` on strings. -/
def containsSub (hay needle : String) : Bool := charsInfix needle.data hay.data

/-! ### Deduplicator (`src/filters/dedup.py`)

`hashlib.md5(url.encode()).hexdigest()` is embedded as an oracle
`md5 : String → String`, and `SequenceMatcher(None, a, b).ratio()` as an
oracle `ratio : String → String → ℚ`; `seen_urls` (a Python `set`) is a
list queried by membership. -/

/-- Config consumed by `Deduplicator.__init__`:
`title_similarity_threshold` (default 0.85) and `url_hash` (default true). -/
structure DedupConfig where
  similarity_threshold : ℚ
  use_url_hash : Bool
  deriving DecidableEq, Repr

/-- The two stdlib calls `Deduplicator` makes, as explicit parameters. -/
structure DedupOracles where
  md5 : String → String
  ratio : String → String → ℚ

/-- `item.get('title', '').lower().strip()`. -/
def normTitle (it : Item) : String := trimStr (lowerStr (getStr it "title" ""))

/-- `Deduplicator._hash_url` applied to `item.get('url', '')`. -/
def itemUrlHash (o : DedupOracles) (it : Item) : String := o.md5 (getStr it "url" "")

/-- `Deduplicator._is_similar_to_existing`: true iff some already-seen
normalized title has similarity ratio ≥ the threshold (`>=`, not `>`). -/
def isSimilarToExisting (o : DedupOracles) (threshold : ℚ)
    (title : String) (existing : List String) : Bool :=
  existing.any fun e => decide (threshold ≤ o.ratio title e)

/-- `seen_urls.add(url_hash)`, performed exactly when `use_url_hash` is set. -/
def urlAcc (cfg : DedupConfig) (o : DedupOracles) (item : Item)
    (seenUrls : List String) : List String :=
  if cfg.use_url_hash then itemUrlHash o item :: seenUrls else seenUrls

/-- The `for item in items` loop of `Deduplicator.deduplicate`, carrying
`seen_urls`, `seen_titles` and the accumulated `unique_items`.  An item is
skipped when its URL hash was seen (only if `use_url_hash`) or when its
normalized title is similar to a kept title; the URL hash is recorded even
when the item is later dropped by the title check, while titles are
recorded only for kept items — exactly as in the source. -/
def dedupLoop (cfg : DedupConfig) (o : DedupOracles) :
    List Item → List String → List String → List Item → List Item
  | [], _, _, out => out
  | item :: rest, seenUrls, seenTitles, out =>
      if cfg.use_url_hash && strMem (itemUrlHash o item) seenUrls then
        dedupLoop cfg o rest seenUrls seenTitles out
      else if isSimilarToExisting o cfg.similarity_threshold (normTitle item) seenTitles then
        dedupLoop cfg o rest (urlAcc cfg o item seenUrls) seenTitles out
      else
        dedupLoop cfg o rest (urlAcc cfg o item seenUrls)
          (seenTitles ++ [normTitle item]) (out ++ [item])

/-- `Deduplicator.deduplicate`. -/
def deduplicate (cfg : DedupConfig) (o : DedupOracles) (items : List Item) : List Item :=
  if items.isEmpty then [] else dedupLoop cfg o items [] [] []

/-- The state in which `dedupLoop` keeps every element: each item's URL hash
is fresh with respect to the seen-URL set and all earlier hashes (when URL
hashing is on), and its normalized title is dissimilar from all seen titles
and all earlier titles. -/
def GoodFrom (cfg : DedupConfig) (o : DedupOracles) :
    List String → List String → List Item → Prop
  | _, _, [] => True
  | seenUrls, seenTitles, item :: rest =>
      (cfg.use_url_hash = true → strMem (itemUrlHash o item) seenUrls = false)
      ∧ isSimilarToExisting o cfg.similarity_threshold (normTitle item) seenTitles = false
      ∧ GoodFrom cfg o (itemUrlHash o item :: seenUrls) (seenTitles ++ [normTitle item]) rest

/-! ### RelevanceFilter (`src/filters/relevance.py`)

The `datetime.strptime` multi-format loop is embedded as an oracle
`parse : String → Option Int` returning the parsed timestamp in seconds
when one of the four supported formats matches (after the `GMT → +0000`
substitution and timezone stripping done by the source), and `none` when
no format matches; `now` stands for `datetime.now()` on the same
timescale.  `timedelta.days` floors, hence `Int.fdiv` by 86400. -/

/-- Config consumed by `RelevanceFilter.__init__`; the keyword-list fields
hold the already case-folded lists the constructor builds. -/
structure FilterConfig where
  max_age_days : Int
  high_priority_keywords : List String
  medium_priority_keywords : List String
  exclude_keywords : List String
  min_engagement_threshold : ℚ
  deriving Repr

/-- The case-folded `title + " " + summary` text both keyword checks run on
(fetched items hold strings under these keys). -/
def itemText (it : Item) : String :=
  lowerStr (getStr it "title" "" ++ " " ++ getStr it "summary" "")

/-- `(datetime.now() - pub_date).days`. -/
def ageDays (now pub : Int) : Int := (now - pub).fdiv 86400

/-- `RelevanceFilter._is_recent`: missing/empty `published` passes, an
unparseable date passes (fail-open), and a parsed date passes iff its age
in days is at most `max_age_days`. -/
def isRecent (cfg : FilterConfig) (parse : String → Option Int) (now : Int) (it : Item) : Bool :=
  let published := getStr it "published" ""
  if published = "" then true
  else
    match parse published with
    | some pub => decide (ageDays now pub ≤ cfg.max_age_days)
    | none => true

/-- `RelevanceFilter._has_excluded_keywords`. -/
def hasExcludedKeywords (cfg : FilterConfig) (it : Item) : Bool :=
  cfg.exclude_keywords.any fun kw => containsSub (itemText it) kw

/-- `next((item.get(key, 0) for key in keys if item.get(key, 0) > 0), 0)`
over `engagement_score`, `points`, `stars`. -/
def engagementSignal (it : Item) : ℚ :=
  match ["engagement_score", "points", "stars"].find? (fun k => decide (0 < getNum it k 0)) with
  | some k => getNum it k 0
  | none => 0

/-- `RelevanceFilter._has_relevant_keywords`. -/
def hasRelevantKeywords (cfg : FilterConfig) (it : Item) : Bool :=
  if cfg.high_priority_keywords.isEmpty && cfg.medium_priority_keywords.isEmpty then true
  else if cfg.high_priority_keywords.any (fun kw => containsSub (itemText it) kw) then true
  else if cfg.medium_priority_keywords.any (fun kw => containsSub (itemText it) kw) then true
  else decide (cfg.min_engagement_threshold ≤ engagementSignal it)

/-- `RelevanceFilter._calculate_keyword_score`: 2.0 per matching
high-priority keyword plus 1.0 per matching medium-priority keyword. -/
def calcKeywordScore (cfg : FilterConfig) (it : Item) : ℚ :=
  2 * ((cfg.high_priority_keywords.filter fun kw => containsSub (itemText it) kw).length : ℚ)
    + ((cfg.medium_priority_keywords.filter fun kw => containsSub (itemText it) kw).length : ℚ)

/-- The three short-circuited checks of `RelevanceFilter.filter`, in source
order: recency, exclusion, inclusion. -/
def passesFilter (cfg : FilterConfig) (parse : String → Option Int) (now : Int)
    (it : Item) : Bool :=
  isRecent cfg parse now it && !hasExcludedKeywords cfg it && hasRelevantKeywords cfg it

/-- `item['keyword_score'] = self._calculate_keyword_score(item)`. -/
def addKeywordScore (cfg : FilterConfig) (it : Item) : Item :=
  setEntry it "keyword_score" (.vNum (calcKeywordScore cfg it))

/-- `RelevanceFilter.filter`. -/
def filterItems (cfg : FilterConfig) (parse : String → Option Int) (now : Int) :
    List Item → List Item
  | [] => []
  | it :: rest =>
      if passesFilter cfg parse now it then
        addKeywordScore cfg it :: filterItems cfg parse now rest
      else
        filterItems cfg parse now rest

/-! ### ContentRanker (`src/filters/ranker.py`)

Scores are exact rationals.  Python `round(x, 2)` is modelled as rounding
`100·x` to the nearest integer (CPython rounds binary-float ties to even;
no value in this development sits on a tie, so the tie rule is
immaterial). -/

/-- `config.get('weights', ...)` with the four keys `_calculate_score`
indexes. -/
structure RankWeights where
  recency : ℚ
  source_priority : ℚ
  keyword_match : ℚ
  engagement : ℚ
  deriving Repr

/-- The default weights from `ContentRanker.__init__`. -/
def defaultWeights : RankWeights :=
  { recency := 3 / 10, source_priority := 3 / 10, keyword_match := 1 / 5, engagement := 1 / 5 }

/-- Python `round(x, 2)` on exact rationals. -/
def round2 (q : ℚ) : ℚ := ((⌊q * 100 + 1 / 2⌋ : ℤ) : ℚ) / 100

/-- `ContentRanker._recency_score` (0 to 10; 5.0 when the date is missing
or unparseable), with the same date-parsing oracle as the filter. -/
def recencyScore (parse : String → Option Int) (now : Int) (it : Item) : ℚ :=
  let published := getStr it "published" ""
  if published = "" then 5
  else
    match parse published with
    | some pub => min ((max 0 (10 - ageDays now pub) : ℤ) : ℚ) 10
    | none => 5

/-- `ContentRanker._source_priority_score`. -/
def sourcePriorityScore (it : Item) : ℚ :=
  let priority := lowerStr (getStr it "source_priority" "medium")
  if priority = "high" then 10
  else if priority = "medium" then 6
  else if priority = "low" then 3
  else 5

/-- `ContentRanker._keyword_score`: `min(keyword_score * 2, 10.0)`. -/
def rankKeywordScore (it : Item) : ℚ := min (getNum it "keyword_score" 0 * 2) 10

/-- `ContentRanker._engagement_score`: per-source normalization —
`points/50` for Hacker News, `stars/100` for GitHub (both capped at 10),
a category proxy for arXiv, flat 5.0 otherwise. -/
def engagementScore (it : Item) : ℚ :=
  let source := getStr it "source" ""
  if source = "hackernews" then min (getNum it "points" 0 / 50) 10
  else if source = "github" then min (getNum it "stars" 0 / 100) 10
  else if source = "arxiv" then
    (if containsSub (getStr it "category" "") "AI" then 8 else 6)
  else 5

/-- The weighted sum inside `ContentRanker._calculate_score`, before the
final `round(total_score, 2)`. -/
def unroundedScore (w : RankWeights) (parse : String → Option Int) (now : Int)
    (it : Item) : ℚ :=
  recencyScore parse now it * w.recency
    + sourcePriorityScore it * w.source_priority
    + rankKeywordScore it * w.keyword_match
    + engagementScore it * w.engagement

/-- `ContentRanker._calculate_score`: the weighted sum rounded to two
decimal places. -/
def calcScore (w : RankWeights) (parse : String → Option Int) (now : Int) (it : Item) : ℚ :=
  round2 (unroundedScore w parse now it)

/-! ### ContentAnalyzer (`src/llm/analyzer.py`) and prompt templates
(`src/llm/prompts.py`)

A built prompt is represented by the selected template's stage name paired
with the keyword arguments handed to `template.format(**kwargs)`; the
template bodies are constant strings and are elided.  `get_prompt` fails
exactly as in the source: `ValueError` for a stage name missing from the
`prompts` dict, and `KeyError` (from `str.format`) when the selected
template has a placeholder that the kwargs do not provide.  The LLM call
`self.client.generate` is an oracle indexed by the iteration counter of
the `enumerate(self.stages, 1)` loop in `analyze`. -/

/-- A formatted prompt: the selected template's stage name and the kwargs
interpolated into it. -/
abbrev Prompt := String × List (String × String)

/-- The placeholder names appearing in each template of `prompts.py`, keyed
by the stage names of the `prompts` dict in `get_prompt`; `none` for
unknown stage names. -/
def templatePlaceholders : String → Option (List String)
  | "fact_extraction" => some ["content"]
  | "engineer_summary" => some ["content"]
  | "impact_analysis" => some ["content"]
  | "application_mapping" => some ["content"]
  | "blog_synthesis" => some ["title", "url", "analyzed_content"]
  | "linkedin_formatting" => some ["title", "url", "analyzed_content"]
  | "credibility_check" => some ["generated_output"]
  | "medium_synthesis" => some ["title", "url", "analyzed_content"]
  | "methodology" => some ["content"]
  | "results" => some ["content"]
  | "diagram_architecture" => some ["content"]
  | "diagram_flow" => some ["content"]
  | "diagram_comparison" => some ["content"]
  | "github_eli5_what" => some ["title", "summary", "topics", "language"]
  | "github_eli5_how" => some ["title", "summary", "language", "topics"]
  | "github_eli5_why" => some ["title", "summary", "stars", "forks", "contributors"]
  | "github_eli5_getting_started" => some ["title", "url", "language"]
  | "github_eli5_blog" => some ["title", "url", "stars", "forks", "contributors",
      "language", "topics", "license", "stars_per_day", "is_active", "summary",
      "analyzed_content"]
  | "linkedin_engaging" => some ["title", "url", "analyzed_content"]
  | "linkedin_validation" => some ["content"]
  | "trend_discovery" => some ["current_date", "recent_content"]
  | _ => none

/-- `get_prompt(stage, **kwargs)`: `ValueError` on an unknown stage,
`KeyError` when a placeholder is missing, otherwise the formatted prompt. -/
def get_prompt (stage : String) (kwargs : List (String × String)) :
    Except String Prompt :=
  match templatePlaceholders stage with
  | none => .error ("Unknown prompt stage: " ++ stage)
  | some ph =>
      match ph.find? (fun p => (lookupEntry kwargs p).isNone) with
      | some missing => .error ("KeyError: " ++ missing)
      | none => .ok (stage, kwargs)

/-- The `analysis` dict built by `ContentAnalyzer.analyze`: the bookkeeping
keys as fields, the per-stage results as an association list. -/
structure Analysis where
  item_id : Option Val
  title : Option Val
  url : Option Val
  source : Option Val
  success : Bool
  completed_stages : List String
  failed_stages : List String
  stageResults : List (String × String)
  deriving DecidableEq, Repr

/-- The initial `analysis` dict of `analyze` (Python stores `item.get(k)`,
i.e. `None` when the key is absent). -/
def initAnalysis (item : Item) : Analysis :=
  { item_id := lookupEntry item "id", title := lookupEntry item "title",
    url := lookupEntry item "url", source := lookupEntry item "source",
    success := true, completed_stages := [], failed_stages := [], stageResults := [] }

/-- Python `str(...)`/f-string rendering of a stored value (`None` renders
as the string `None`; list rendering is approximated by a comma join — no
claim inspects it). -/
def pyShow : Option Val → String
  | some (.vStr s) => s
  | some (.vNum q) => toString q
  | some (.vList l) => String.intercalate ", " l
  | none => "None"

/-- Python truthiness of a possibly-absent value. -/
def truthyVal : Option Val → Bool
  | some (.vStr s) => decide (s ≠ "")
  | some (.vNum q) => decide (q ≠ 0)
  | some (.vList l) => !l.isEmpty
  | none => false

/-- `', '.join(v)` when the value is a list, else the value itself
(the `isinstance(..., list)` branches of `_prepare_content`). -/
def joinIfList : Val → String
  | .vList l => String.intercalate ", " l
  | .vStr s => s
  | .vNum q => toString q

/-- `'\n'.join(parts)`. -/
def joinLines : List String → String
  | [] => ""
  | [x] => x
  | x :: rest => x ++ "\n" ++ joinLines rest

/-- `ContentAnalyzer._prepare_content`. -/
def prepareContent (item : Item) : String :=
  let parts1 := ["Title: " ++ (match lookupEntry item "title" with
        | some v => pyShow (some v) | none => "N/A"),
      "Source: " ++ (match lookupEntry item "source" with
        | some v => pyShow (some v) | none => "N/A"),
      "URL: " ++ (match lookupEntry item "url" with
        | some v => pyShow (some v) | none => "N/A")]
  let parts2 := if truthyVal (lookupEntry item "authors") then
      parts1 ++ ["Authors: " ++ (match lookupEntry item "authors" with
        | some v => joinIfList v | none => "")]
    else parts1
  let parts3 := if truthyVal (lookupEntry item "published") then
      parts2 ++ ["Published: " ++ pyShow (lookupEntry item "published")]
    else parts2
  let parts4 := if getStr item "summary" "" ≠ "" then
      parts3 ++ ["\nContent:\n" ++ getStr item "summary" ""]
    else parts3
  let parts5 := if truthyVal (lookupEntry item "category") then
      parts4 ++ ["Category: " ++ pyShow (lookupEntry item "category")]
    else parts4
  let parts6 := if truthyVal (lookupEntry item "topics") then
      parts5 ++ ["Topics: " ++ (match lookupEntry item "topics" with
        | some v => joinIfList v | none => "")]
    else parts5
  joinLines parts6

/-- `key.replace('_', ' ')` for the single-character pattern used here. -/
def replaceUnderscores (s : String) : String :=
  String.mk (s.data.map fun c => if c = '_' then ' ' else c)

/-- Split a character list on spaces (no run merging, like `str.split(' ')`
on the single-space-separated words produced above). -/
def splitOnSpace : List Char → List (List Char)
  | [] => [[]]
  | c :: rest =>
      if c = ' ' then [] :: splitOnSpace rest
      else
        match splitOnSpace rest with
        | [] => [[c]]
        | h :: t => (c :: h) :: t

/-- Capitalize a word: first character upper, rest lower (`str.title` on
the alphabetic words used here). -/
def capWord : List Char → List Char
  | [] => []
  | c :: rest => c.toUpper :: rest.map Char.toLower

/-- Python `str.title()` on space-separated alphabetic words. -/
def pyTitle (s : String) : String :=
  String.intercalate " " ((splitOnSpace s.data).map fun w => String.mk (capWord w))

/-- The four prior-stage keys `_format_analysis` renders. -/
def analysisKeys : List String :=
  ["fact_extraction", "engineer_summary", "impact_analysis", "application_mapping"]

/-- `ContentAnalyzer._format_analysis`: each present, non-empty stage
output is rendered under a `## <Title Case>` heading followed by a blank
line, and everything is newline-joined. -/
def formatAnalysis (a : Analysis) : String :=
  joinLines (analysisKeys.foldl
    (fun parts key =>
      match lookupEntry a.stageResults key with
      | some v => if v = "" then parts
          else parts ++ ["## " ++ pyTitle (replaceUnderscores key), v, ""]
      | none => parts)
    [])

/-- The kwargs `_run_stage` passes to `get_prompt`: the accumulated
analysis for the two synthesis stages listed in the source, the raw
prepared content for every other stage. -/
def buildStageKwargs (stage : String) (content : String) (prev : Analysis) :
    List (String × String) :=
  if stage = "blog_synthesis" ∨ stage = "linkedin_formatting" then
    [("title", pyShow prev.title), ("url", pyShow prev.url),
     ("analyzed_content", formatAnalysis prev)]
  else
    [("content", content)]

/-- `ContentAnalyzer._run_stage`: build the prompt (exceptions propagate),
call the generator (its inner try re-raises), strip the response. -/
def runStage (gen : Nat → Prompt → Except String String) (i : Nat) (stage : String)
    (content : String) (prev : Analysis) : Except String String :=
  match get_prompt stage (buildStageKwargs stage content prev) with
  | .error e => .error e
  | .ok p =>
      match gen i p with
      | .error e => .error e
      | .ok response => .ok (trimStr response)

/-- The `for i, stage in enumerate(self.stages, 1)` loop of `analyze`: a
successful stage stores its text and extends `completed_stages`; any
exception is caught, stored as `"Error: <message>"` and extends
`failed_stages`, and the loop continues. -/
def analyzeLoop (gen : Nat → Prompt → Except String String) (content : String) :
    List String → Nat → Analysis → Analysis
  | [], _, a => a
  | stage :: rest, i, a =>
      match runStage gen i stage content a with
      | .ok r => analyzeLoop gen content rest (i + 1)
          { a with stageResults := setEntry a.stageResults stage r,
                   completed_stages := a.completed_stages ++ [stage] }
      | .error e => analyzeLoop gen content rest (i + 1)
          { a with stageResults := setEntry a.stageResults stage ("Error: " ++ e),
                   failed_stages := a.failed_stages ++ [stage] }

/-- `ContentAnalyzer.analyze`: run every configured stage, then set
`success` iff no stage failed. -/
def analyze (stages : List String) (gen : Nat → Prompt → Except String String)
    (item : Item) : Analysis :=
  let a := analyzeLoop gen (prepareContent item) stages 1 (initAnalysis item)
  { a with success := a.failed_stages.isEmpty }

/-- The bookkeeping keys `analyze` seeds into its single analysis dict.
The source stores per-stage results into that same dict, so a stage
*named* like one of these keys would clobber bookkeeping state (e.g. a
stage named `failed_stages` overwrites the failure list and the following
`.append` raises `AttributeError` out of `analyze`).  The embedding keeps
bookkeeping in separate record fields, so its theorems about unknown-stage
handling are stated only for stage names outside this list, where the two
representations agree. -/
def analysisBookkeepingKeys : List String :=
  ["item_id", "title", "url", "source", "success", "completed_stages", "failed_stages"]

/-! ### LinkedIn safety validation (`ContentAnalyzer.validate_linkedin_safety`
and `_basic_validation`)

The `try` block around prompt building, `self.client.generate` and
`json.loads` is embedded as two oracles: `genResult` (the generate call's
outcome) and `jsonParse` (`json.loads`, `none` on `JSONDecodeError`); any
failure, and any response without an extractable JSON region, falls back
to `_basic_validation`. -/

/-- One entry of the `issues` list built by `_basic_validation`. -/
structure Issue where
  category : String
  severity : String
  issue : String
  suggestion : String
  deriving DecidableEq, Repr

/-- JSON-ish values stored in a validation-result dict. -/
inductive JVal where
  | jBool : Bool → JVal
  | jInt : Int → JVal
  | jStr : String → JVal
  | jIssues : List Issue → JVal
  deriving DecidableEq, Repr

/-- Regex word characters (`\w`). -/
def isWordChar (c : Char) : Bool := c.isAlphanum || c = '_'

/-- Case-insensitive match of `needle` against a prefix of the second list,
returning the remainder on success. -/
def matchCI : List Char → List Char → Option (List Char)
  | [], hay => some hay
  | _ :: _, [] => none
  | n :: ns, h :: hs => if n.toLower = h.toLower then matchCI ns hs else none

/-- `\b` holds after the match iff the next character is not a word
character (or the string ends). -/
def boundaryAfter : List Char → Bool
  | [] => true
  | c :: _ => !isWordChar c

/-- Scan for a word-boundary-delimited, case-insensitive occurrence;
`prev` is the character before the current position. -/
def searchWordFrom (needle : List Char) : Option Char → List Char → Bool
  | _, [] => false
  | prev, h :: hs =>
      (match matchCI needle (h :: hs) with
       | some rest =>
           (match prev with
            | none => true
            | some c => !isWordChar c) && boundaryAfter rest
       | none => false)
      || searchWordFrom needle (some h) hs

/-- `re.search(rf'\b{word}\b', content, re.IGNORECASE)` for the plain
alphabetic words the profanity list holds. -/
def containsWordCI (content word : String) : Bool :=
  searchWordFrom word.data none content.data

/-- The profanity loop of `_basic_validation` breaks after the first word
that matches; `find?` returns exactly that word. -/
def foundProfanity (plist : List String) (content : String) : Option String :=
  plist.find? fun w => containsWordCI content w

/-- Helper for `len(content.split())`: counts maximal non-whitespace runs. -/
def countWordsAux : Bool → List Char → Nat
  | _, [] => 0
  | inWord, c :: rest =>
      if c.isWhitespace then countWordsAux false rest
      else (if inWord then 0 else 1) + countWordsAux true rest

/-- `len(content.split())`. -/
def pyWordCount (s : String) : Nat := countWordsAux false s.data

/-- After `[` and one digit: accept more digits then `]`. -/
def citAfterFirstDigit : List Char → Bool
  | [] => false
  | c :: rest => if c = ']' then true else c.isDigit && citAfterFirstDigit rest

/-- After `[`: one or more digits then `]`. -/
def citDigits : List Char → Bool
  | [] => false
  | c :: rest => c.isDigit && citAfterFirstDigit rest

/-- `re.search(r'\[\d+\]', content)`. -/
def hasCitation : List Char → Bool
  | [] => false
  | c :: rest => (if c = '[' then citDigits rest else false) || hasCitation rest

def profanityIssue (w : String) : Issue :=
  { category := "safety", severity := "critical",
    issue := "Contains profanity: " ++ w, suggestion := "Remove profane language" }

def lengthIssue (wc : Nat) : Issue :=
  { category := "quality", severity := "medium",
    issue := "Too long: " ++ toString wc ++ " words",
    suggestion := "Shorten to under 300 words" }

def citationIssue : Issue :=
  { category := "quality", severity := "low",
    issue := "Contains citation markers",
    suggestion := "Remove [1], [2] style citations" }

/-- `ContentAnalyzer._basic_validation`: score starts at 100, minus 30 for
the first profanity hit, minus 10 for more than 300 words, minus 5 for a
citation marker; validity/approval at score ≥ 70; the reported score is
clamped with `max(0, score)`. -/
def basicValidation (plist : List String) (content : String) : List (String × JVal) :=
  let step1 : List Issue × Int :=
    match foundProfanity plist content with
    | some w => ([profanityIssue w], 100 - 30)
    | none => ([], 100)
  let wc := pyWordCount content
  let step2 : List Issue × Int :=
    if 300 < wc then (step1.1 ++ [lengthIssue wc], step1.2 - 10) else step1
  let step3 : List Issue × Int :=
    if hasCitation content.data then (step2.1 ++ [citationIssue], step2.2 - 5) else step2
  [("is_valid", .jBool (decide (70 ≤ step3.2))),
   ("validation_score", .jInt (max 0 step3.2)),
   ("issues", .jIssues step3.1),
   ("approved", .jBool (decide (70 ≤ step3.2))),
   ("summary", .jStr ("Basic validation: " ++ toString step3.1.length ++ " issues found"))]

/-- Opening brace character (written via its code point). -/
def lbrace : Char := Char.ofNat 123

/-- Closing brace character (written via its code point). -/
def rbrace : Char := Char.ofNat 125

/-- `json_start = response.find('{')`, `json_end = response.rfind('}') + 1`,
slice taken when `json_start >= 0 and json_end > json_start`. -/
def extractJsonRegion (response : String) : Option String :=
  match response.data.findIdx? (· = lbrace),
        response.data.reverse.findIdx? (· = rbrace) with
  | some i, some jr =>
      let j := response.data.length - 1 - jr
      if i < j + 1 then some (String.mk ((response.data.drop i).take (j + 1 - i)))
      else none
  | _, _ => none

/-- `ContentAnalyzer.validate_linkedin_safety`: a successfully parsed JSON
region is returned as-is; a generate failure, a response without a JSON
region, or a JSON parse failure all fall back to `_basic_validation`. -/
def validateLinkedInSafety (plist : List String) (genResult : Except String String)
    (jsonParse : String → Option (List (String × JVal))) (content : String) :
    List (String × JVal) :=
  match genResult with
  | .error _ => basicValidation plist content
  | .ok response =>
      match extractJsonRegion response with
      | some jstr =>
          match jsonParse jstr with
          | some d => d
          | none => basicValidation plist content
      | none => basicValidation plist content

/-- The situations in which the LLM response cannot be parsed as JSON (so
the fallback runs): generate failed, no JSON region, or `json.loads`
failed. -/
def fallbackTaken (genResult : Except String String)
    (jsonParse : String → Option (List (String × JVal))) : Prop :=
  match genResult with
  | .error _ => True
  | .ok response =>
      match extractJsonRegion response with
      | some jstr => jsonParse jstr = none
      | none => True

/-- The pre-clamp score of `_basic_validation`, spelled as one expression. -/
def basicRawScore (plist : List String) (content : String) : Int :=
  100 - (if (foundProfanity plist content).isSome then 30 else 0)
    - (if 300 < pyWordCount content then 10 else 0)
    - (if hasCitation content.data then 5 else 0)

/-- How many issues `_basic_validation` detects. -/
def basicIssueCount (plist : List String) (content : String) : Nat :=
  (if (foundProfanity plist content).isSome then 1 else 0)
    + (if 300 < pyWordCount content then 1 else 0)
    + (if hasCitation content.data then 1 else 0)

/-! ### Concrete instances used by witnesses and counterexamples -/

def oraclesAtThreshold : DedupOracles :=
  { md5 := id, ratio := fun _ _ => 17 / 20 }

def oraclesBelowThreshold : DedupOracles :=
  { md5 := id, ratio := fun _ _ => 1 / 2 }

def dedupCfgW : DedupConfig := { similarity_threshold := 17 / 20, use_url_hash := true }

def itemAW : Item := [("title", .vStr "First story"), ("url", .vStr "http://x/1")]

def itemBW : Item := [("title", .vStr "Second story"), ("url", .vStr "http://x/2")]

def itemNoUrlA : Item := [("title", .vStr "Totally unrelated headline")]

def itemNoUrlB : Item := [("title", .vStr "An entirely different subject")]

def itemNoUrlC : Item := [("title", .vStr "Third distinct thing"), ("url", .vStr "")]

def filterCfgW : FilterConfig :=
  { max_age_days := 7, high_priority_keywords := [], medium_priority_keywords := [],
    exclude_keywords := [], min_engagement_threshold := 100 }

def parseW : String → Option Int := fun s => if s = "2024-01-01" then some 0 else none

def itemUnparseableW : Item := [("published", .vStr "not a date")]

def itemDatedW : Item := [("published", .vStr "2024-01-01")]

def ghItemOneStar : Item := [("source", .vStr "github"), ("stars", .vNum 1)]

def ghItemTwoStars : Item := [("source", .vStr "github"), ("stars", .vNum 2)]

/-- A generator oracle that always succeeds. -/
def genOkW : Nat → Prompt → Except String String := fun _ _ => .ok "generated text"

/-- An accumulated analysis holding the four early-stage outputs. -/
def analysisW : Analysis :=
  { item_id := none, title := some (.vStr "Some paper"), url := some (.vStr "http://x/p"),
    source := some (.vStr "arxiv"), success := true,
    completed_stages := ["fact_extraction", "engineer_summary", "impact_analysis",
      "application_mapping"],
    failed_stages := [],
    stageResults := [("fact_extraction", "F out"), ("engineer_summary", "E out"),
      ("impact_analysis", "I out"), ("application_mapping", "A out")] }

def profListW : List String := ["damn", "hell", "crap"]

def contentW8 : String := "This is a damn long post [1]"

/-! ## Theorems -/

theorem lookupEntry_setEntry_self {α : Type} (l : List (String × α)) (k : String) (v : α) :
    lookupEntry (setEntry l k v) k = some v := by
  induction l with
  | nil => simp [setEntry, lookupEntry]
  | cons hd tl ih =>
      obtain ⟨k1, v1⟩ := hd
      by_cases h : k1 = k
      · simp [setEntry, lookupEntry, h]
      · simp [setEntry, lookupEntry, h, ih]

theorem lookupEntry_setEntry_other {α : Type} (l : List (String × α)) (k k2 : String) (v : α)
    (h : k2 ≠ k) : lookupEntry (setEntry l k v) k2 = lookupEntry l k2 := by
  induction l with
  | nil => simp [setEntry, lookupEntry, Ne.symm h]
  | cons hd tl ih =>
      obtain ⟨k1, v1⟩ := hd
      by_cases hk : k1 = k
      · subst hk
        simp [setEntry, lookupEntry, Ne.symm h]
      · by_cases hk2 : k1 = k2
        · simp [setEntry, lookupEntry, hk, hk2, h]
        · simp [setEntry, lookupEntry, hk, hk2, ih]

theorem strMem_cons (x y : String) (l : List String) :
    strMem x (y :: l) = true ↔ (y = x ∨ strMem x l = true) := by
  by_cases h : y = x <;> simp [strMem, h]

theorem goodFrom_mono (cfg : DedupConfig) (o : DedupOracles) (l : List Item) :
    ∀ sU sU2 sT, (cfg.use_url_hash = true → ∀ x, strMem x sU = true → strMem x sU2 = true) →
      GoodFrom cfg o sU2 sT l → GoodFrom cfg o sU sT l := by
  induction l with
  | nil => intro sU sU2 sT _ _; trivial
  | cons item rest ih =>
      intro sU sU2 sT hsub hgood
      obtain ⟨h1, h2, h3⟩ := hgood
      refine ⟨?_, h2, ?_⟩
      · intro hu
        cases hc : strMem (itemUrlHash o item) sU with
        | false => rfl
        | true => exact absurd (hsub hu _ hc) (by simp [h1 hu])
      · refine ih _ _ _ ?_ h3
        intro hu x hx
        rcases (strMem_cons _ _ _).mp hx with h | h
        · exact (strMem_cons _ _ _).mpr (Or.inl h)
        · exact (strMem_cons _ _ _).mpr (Or.inr (hsub hu _ h))

theorem dedupLoop_output_good (cfg : DedupConfig) (o : DedupOracles) (l : List Item) :
    ∀ sU sT out, ∃ ext, dedupLoop cfg o l sU sT out = out ++ ext ∧ GoodFrom cfg o sU sT ext := by
  induction l with
  | nil => intro sU sT out; exact ⟨[], by simp [dedupLoop], trivial⟩
  | cons item rest ih =>
      intro sU sT out
      by_cases hdup : (cfg.use_url_hash && strMem (itemUrlHash o item) sU) = true
      · obtain ⟨ext, he, hg⟩ := ih sU sT out
        refine ⟨ext, ?_, hg⟩
        simp only [dedupLoop, if_pos hdup]
        exact he
      · by_cases hsim :
            isSimilarToExisting o cfg.similarity_threshold (normTitle item) sT = true
        · obtain ⟨ext, he, hg⟩ := ih (urlAcc cfg o item sU) sT out
          refine ⟨ext, ?_, ?_⟩
          · simp only [dedupLoop, if_neg hdup, if_pos hsim]
            exact he
          · refine goodFrom_mono cfg o ext sU (urlAcc cfg o item sU) sT ?_ hg
            intro hu x hx
            simp only [urlAcc, hu, if_pos rfl]
            exact (strMem_cons _ _ _).mpr (Or.inr hx)
        · obtain ⟨ext, he, hg⟩ := ih (urlAcc cfg o item sU) (sT ++ [normTitle item]) (out ++ [item])
          refine ⟨item :: ext, ?_, ?_, ?_, ?_⟩
          · simp only [dedupLoop, if_neg hdup, if_neg hsim]
            rw [he]
            simp
          · intro hu
            cases hc : strMem (itemUrlHash o item) sU with
            | false => rfl
            | true => exact absurd (by simp [hu, hc] : (cfg.use_url_hash &&
                strMem (itemUrlHash o item) sU) = true) hdup
          · cases hs : isSimilarToExisting o cfg.similarity_threshold (normTitle item) sT with
            | false => rfl
            | true => exact absurd hs hsim
          · refine goodFrom_mono cfg o ext (itemUrlHash o item :: sU) (urlAcc cfg o item sU) _
              ?_ hg
            intro hu x hx
            simpa [urlAcc, hu] using hx

theorem dedupLoop_keeps_good (cfg : DedupConfig) (o : DedupOracles) (l : List Item) :
    ∀ sU sT out, GoodFrom cfg o sU sT l →
      dedupLoop cfg o l sU sT out = out ++ l := by
  induction l with
  | nil => intro sU sT out _; simp [dedupLoop]
  | cons item rest ih =>
      intro sU sT out hgood
      obtain ⟨h1, h2, h3⟩ := hgood
      have hnodup : ¬ (cfg.use_url_hash && strMem (itemUrlHash o item) sU) = true := by
        intro hc
        rcases Bool.and_eq_true_iff.mp hc with ⟨hu, hm⟩
        rw [h1 hu] at hm
        exact Bool.noConfusion hm
      have hsim : ¬ isSimilarToExisting o cfg.similarity_threshold (normTitle item) sT = true := by
        rw [h2]; exact Bool.noConfusion
      simp only [dedupLoop, if_neg hnodup, if_neg hsim]
      have hrec : GoodFrom cfg o (urlAcc cfg o item sU) (sT ++ [normTitle item]) rest := by
        cases hu : cfg.use_url_hash
        · have hacc : urlAcc cfg o item sU = sU := by simp [urlAcc, hu]
          rw [hacc]
          refine goodFrom_mono cfg o rest sU (itemUrlHash o item :: sU) _ ?_ h3
          intro hu2
          rw [hu] at hu2
          exact absurd hu2 (by simp)
        · simpa [urlAcc, hu] using h3
      rw [ih _ _ _ hrec]
      simp

/-- C4. `Deduplicator.deduplicate` is idempotent: its output passes through
unchanged (same items, same order) when deduplicated again, for every
config, hash function, similarity oracle and input list. -/
theorem deduplicate_idempotent (cfg : DedupConfig) (o : DedupOracles) (items : List Item) :
    deduplicate cfg o (deduplicate cfg o items) = deduplicate cfg o items := by
  by_cases hempty : items.isEmpty = true
  · simp [deduplicate, hempty]
  · have h1 : deduplicate cfg o items = dedupLoop cfg o items [] [] [] := by
      unfold deduplicate
      rw [if_neg hempty]
    obtain ⟨ext, he, hg⟩ := dedupLoop_output_good cfg o items [] [] []
    rw [List.nil_append] at he
    rw [h1, he]
    by_cases hext : ext.isEmpty = true
    · unfold deduplicate
      rw [if_pos hext]
      exact (List.isEmpty_iff.mp hext).symm
    · unfold deduplicate
      rw [if_neg hext, dedupLoop_keeps_good cfg o ext [] [] [] hg, List.nil_append]

/-- C5. Threshold boundary of the title-similarity check: with two items of
distinct URL hashes, the second is dropped when the similarity of its
normalized title to the first is exactly the configured threshold (the
comparison is `>=`), and kept when it is strictly below. -/
theorem dedup_threshold_boundary (cfg : DedupConfig) (o : DedupOracles) (a b : Item)
    (hhash : cfg.use_url_hash = true → itemUrlHash o a ≠ itemUrlHash o b) :
    (o.ratio (normTitle b) (normTitle a) = cfg.similarity_threshold →
       deduplicate cfg o [a, b] = [a])
    ∧ (o.ratio (normTitle b) (normTitle a) < cfg.similarity_threshold →
       deduplicate cfg o [a, b] = [a, b]) := by
  have hurlA : (cfg.use_url_hash && strMem (itemUrlHash o a) []) = false := by
    simp [strMem]
  have hsimA : isSimilarToExisting o cfg.similarity_threshold (normTitle a) [] = false := rfl
  have hurlB : (cfg.use_url_hash && strMem (itemUrlHash o b) (urlAcc cfg o a [])) = false := by
    cases hu : cfg.use_url_hash
    · simp
    · simp [urlAcc, hu, strMem, hhash hu]
  constructor
  · intro heq
    have hsimB : isSimilarToExisting o cfg.similarity_threshold (normTitle b)
        ([] ++ [normTitle a]) = true := by
      simp [isSimilarToExisting, heq]
    unfold deduplicate
    rw [if_neg (by simp)]
    simp only [dedupLoop, hurlA, Bool.false_eq_true, if_neg (by simp : ¬ False), hsimA,
      hurlB, hsimB, if_pos rfl]
    rfl
  · intro hlt
    have hsimB : isSimilarToExisting o cfg.similarity_threshold (normTitle b)
        ([] ++ [normTitle a]) = false := by
      simp [isSimilarToExisting]
      exact hlt
    unfold deduplicate
    rw [if_neg (by simp)]
    simp only [dedupLoop, hurlA, Bool.false_eq_true, if_neg (by simp : ¬ False), hsimA,
      hurlB, hsimB]
    rfl

/-- Witness for C5: at similarity exactly 0.85 with threshold 0.85 the second
item is dropped; at similarity 0.5 it is kept. -/
theorem dedup_threshold_boundary_witness :
    deduplicate dedupCfgW oraclesAtThreshold [itemAW, itemBW] = [itemAW]
    ∧ deduplicate dedupCfgW oraclesBelowThreshold [itemAW, itemBW] = [itemAW, itemBW] := by
  constructor
  · exact (dedup_threshold_boundary dedupCfgW oraclesAtThreshold itemAW itemBW
      (fun _ => by decide)).1 rfl
  · exact (dedup_threshold_boundary dedupCfgW oraclesBelowThreshold itemAW itemBW
      (fun _ => by decide)).2 (by norm_num [oraclesBelowThreshold, dedupCfgW])

theorem dedupLoop_all_seen (cfg : DedupConfig) (o : DedupOracles)
    (hu : cfg.use_url_hash = true) (l : List Item) :
    ∀ sU sT out, (∀ it ∈ l, getStr it "url" "" = "") → strMem (o.md5 "") sU = true →
      dedupLoop cfg o l sU sT out = out := by
  induction l with
  | nil => intros; simp [dedupLoop]
  | cons item rest ih =>
      intro sU sT out hall hmem
      have hh : itemUrlHash o item = o.md5 "" := by
        rw [itemUrlHash, hall item (by simp)]
      have hcond : (cfg.use_url_hash && strMem (itemUrlHash o item) sU) = true := by
        rw [hu, hh, hmem]; rfl
      simp only [dedupLoop, if_pos hcond]
      exact ih sU sT out (fun it hit => hall it (by simp [hit])) hmem

/-- C9. With `url_hash` enabled, `Deduplicator` hashes `item.get('url', '')`;
a list of two or more items that all lack a URL (or all have the empty URL)
collapses to just its first item, no matter how dissimilar their titles
are (the theorem holds for every similarity oracle). -/
theorem dedup_missing_urls_collapse (cfg : DedupConfig) (o : DedupOracles)
    (hu : cfg.use_url_hash = true) (first : Item) (rest : List Item)
    (hall : ∀ it ∈ first :: rest, getStr it "url" "" = "") :
    deduplicate cfg o (first :: rest) = [first] := by
  have hfirst : itemUrlHash o first = o.md5 "" := by
    rw [itemUrlHash, hall first (by simp)]
  have hurl1 : (cfg.use_url_hash && strMem (itemUrlHash o first) []) = false := by
    simp [strMem]
  have hsim1 : isSimilarToExisting o cfg.similarity_threshold (normTitle first) [] = false := rfl
  unfold deduplicate
  rw [if_neg (by simp)]
  simp only [dedupLoop, hurl1, Bool.false_eq_true, if_neg (by simp : ¬ False), hsim1]
  rw [dedupLoop_all_seen cfg o hu rest (urlAcc cfg o first [])
      ([] ++ [normTitle first]) ([] ++ [first])
      (fun it hit => hall it (by simp [hit]))
      (by simp [urlAcc, hu, hfirst, strMem])]
  simp

/-- Witness for C9: three url-less items with wildly different titles, under
an oracle reporting zero similarity everywhere, still collapse to the first. -/
theorem dedup_missing_urls_collapse_witness :
    deduplicate dedupCfgW oraclesBelowThreshold [itemNoUrlA, itemNoUrlB, itemNoUrlC]
      = [itemNoUrlA] :=
  dedup_missing_urls_collapse dedupCfgW oraclesBelowThreshold rfl itemNoUrlA
    [itemNoUrlB, itemNoUrlC] (by decide)

/-- C7. Fail-open recency: an item with an absent, empty or unparseable
`published` date is always treated as recent; a parseable one is treated
as recent exactly when its age in days is at most `max_age_days` (so an
item exactly `max_age_days` old passes, and rejection happens only for a
strictly larger age). -/
theorem filter_fail_open_recency (cfg : FilterConfig) (parse : String → Option Int)
    (now : Int) (it : Item) :
    ((getStr it "published" "" = "" ∨ parse (getStr it "published" "") = none) →
       isRecent cfg parse now it = true)
    ∧ (∀ pub, getStr it "published" "" ≠ "" → parse (getStr it "published" "") = some pub →
        (isRecent cfg parse now it = true ↔ ageDays now pub ≤ cfg.max_age_days)) := by
  constructor
  · rintro (h | h)
    · simp [isRecent, h]
    · by_cases hp : getStr it "published" "" = ""
      · simp [isRecent, hp]
      · simp [isRecent, hp, h]
  · intro pub hne hsome
    simp [isRecent, hne, hsome]

/-- Witness for C7: an unparseable date passes; a date exactly 7 days old
passes with `max_age_days = 7`; one 8 days old is rejected. -/
theorem filter_fail_open_recency_witness :
    isRecent filterCfgW parseW 0 itemUnparseableW = true
    ∧ isRecent filterCfgW parseW 604800 itemDatedW = true
    ∧ isRecent filterCfgW parseW 691200 itemDatedW = false := by
  refine ⟨?_, ?_, ?_⟩
  · exact (filter_fail_open_recency filterCfgW parseW 0 itemUnparseableW).1 (Or.inr rfl)
  · exact ((filter_fail_open_recency filterCfgW parseW 604800 itemDatedW).2 0
      (by decide) rfl).mpr (by decide)
  · cases hc : isRecent filterCfgW parseW 691200 itemDatedW with
    | false => rfl
    | true => exact absurd (((filter_fail_open_recency filterCfgW parseW 691200
        itemDatedW).2 0 (by decide) rfl).mp hc) (by decide)

/-- C10. Frame property of `RelevanceFilter.filter`: the output is the
order-preserving sublist of survivors, and each survivor is its input item
with only the `keyword_score` binding written (every other key reads back
unchanged). -/
theorem filter_frame (cfg : FilterConfig) (parse : String → Option Int) (now : Int)
    (items : List Item) :
    filterItems cfg parse now items
      = (items.filter (passesFilter cfg parse now)).map (addKeywordScore cfg)
    ∧ List.Sublist (items.filter (passesFilter cfg parse now)) items
    ∧ (∀ it : Item, ∀ k, k ≠ "keyword_score" →
        lookupEntry (addKeywordScore cfg it) k = lookupEntry it k)
    ∧ (∀ it : Item, lookupEntry (addKeywordScore cfg it) "keyword_score"
        = some (.vNum (calcKeywordScore cfg it))) := by
  refine ⟨?_, List.filter_sublist _, ?_, ?_⟩
  · induction items with
    | nil => rfl
    | cons it rest ih =>
        by_cases h : passesFilter cfg parse now it = true
        · simp [filterItems, h, ih, List.filter_cons_of_pos]
        · simp [filterItems, h, ih, List.filter_cons_of_neg]
  · intro it k hk
    exact lookupEntry_setEntry_other it "keyword_score" k _ hk
  · intro it
    exact lookupEntry_setEntry_self it "keyword_score" _

/-- Witness for C10 at a concrete list: the surviving item equals the input
item plus the `keyword_score` binding, and an unrelated key is untouched. -/
theorem filter_frame_witness :
    filterItems filterCfgW parseW 0 [itemDatedW]
      = [addKeywordScore filterCfgW itemDatedW]
    ∧ lookupEntry (addKeywordScore filterCfgW itemDatedW) "published"
      = lookupEntry itemDatedW "published" := by
  obtain ⟨h1, _, h3, _⟩ := filter_frame filterCfgW parseW 0 [itemDatedW]
  refine ⟨?_, h3 itemDatedW "published" (by decide)⟩
  rw [h1]
  rfl

/-- Counterexample to C6 as stated: two GitHub items identical except for
`stars` 1 vs 2 — both far below the saturation point 1000 — receive the
same composite score under the default weights, because the 0.002
difference in the weighted total vanishes in `round(·, 2)`.  So increasing
`stars` does not strictly increase `_calculate_score`'s result. -/
theorem ranking_monotonicity_counterexample :
    getNum ghItemOneStar "stars" 0 < getNum ghItemTwoStars "stars" 0
    ∧ engagementScore ghItemOneStar < 10
    ∧ engagementScore ghItemOneStar < engagementScore ghItemTwoStars
    ∧ calcScore defaultWeights (fun _ => none) 0 ghItemTwoStars
      = calcScore defaultWeights (fun _ => none) 0 ghItemOneStar := by
  have hz1 : getNum ghItemOneStar "stars" 0 = 1 := rfl
  have hz2 : getNum ghItemTwoStars "stars" 0 = 2 := rfl
  have heng1 : engagementScore ghItemOneStar = 1 / 100 := by
    simp only [engagementScore]
    rw [show getStr ghItemOneStar "source" "" = "github" from rfl, hz1,
      if_neg (by decide : ¬ ("github" : String) = "hackernews"), if_pos rfl]
    exact min_eq_left (by norm_num)
  have heng2 : engagementScore ghItemTwoStars = 2 / 100 := by
    simp only [engagementScore]
    rw [show getStr ghItemTwoStars "source" "" = "github" from rfl, hz2,
      if_neg (by decide : ¬ ("github" : String) = "hackernews"), if_pos rfl]
    exact min_eq_left (by norm_num)
  have hk1 : rankKeywordScore ghItemOneStar = 0 := by
    simp only [rankKeywordScore]
    rw [show getNum ghItemOneStar "keyword_score" 0 = 0 from rfl]
    norm_num
  have hk2 : rankKeywordScore ghItemTwoStars = 0 := by
    simp only [rankKeywordScore]
    rw [show getNum ghItemTwoStars "keyword_score" 0 = 0 from rfl]
    norm_num
  have hpr1 : sourcePriorityScore ghItemOneStar = 6 := by
    simp only [sourcePriorityScore]
    rw [show lowerStr (getStr ghItemOneStar "source_priority" "medium") = "medium" from rfl]
    rw [if_neg (by decide : ¬ ("medium" : String) = "high"), if_pos rfl]
  have hpr2 : sourcePriorityScore ghItemTwoStars = 6 := by
    simp only [sourcePriorityScore]
    rw [show lowerStr (getStr ghItemTwoStars "source_priority" "medium") = "medium" from rfl]
    rw [if_neg (by decide : ¬ ("medium" : String) = "high"), if_pos rfl]
  have hu1 : unroundedScore defaultWeights (fun _ => none) 0 ghItemOneStar = 1651 / 500 := by
    simp only [unroundedScore, heng1, hk1, hpr1,
      show recencyScore (fun _ => none) 0 ghItemOneStar = 5 from rfl, defaultWeights]
    norm_num
  have hu2 : unroundedScore defaultWeights (fun _ => none) 0 ghItemTwoStars = 413 / 125 := by
    simp only [unroundedScore, heng2, hk2, hpr2,
      show recencyScore (fun _ => none) 0 ghItemTwoStars = 5 from rfl, defaultWeights]
    norm_num
  refine ⟨by rw [hz1, hz2]; norm_num, by rw [heng1]; norm_num,
    by rw [heng1, heng2]; norm_num, ?_⟩
  simp only [calcScore, hu1, hu2, round2]
  rw [show ((413 : ℚ) / 125 * 100 + 1 / 2) = 3309 / 10 from by norm_num,
    show ((1651 : ℚ) / 500 * 100 + 1 / 2) = 3307 / 10 from by norm_num]
  rw [show (⌊(3309 : ℚ) / 10⌋ : ℤ) = 330 from by
      rw [Int.floor_eq_iff]; norm_num,
    show (⌊(3307 : ℚ) / 10⌋ : ℤ) = 330 from by
      rw [Int.floor_eq_iff]; norm_num]

theorem getStr_setEntry_other (it : Item) (k k2 : String) (v : Val) (d : String)
    (h : k2 ≠ k) : getStr (setEntry it k v) k2 d = getStr it k2 d := by
  unfold getStr
  rw [lookupEntry_setEntry_other it k k2 v h]

theorem getNum_setEntry_other (it : Item) (k k2 : String) (v : Val) (d : ℚ)
    (h : k2 ≠ k) : getNum (setEntry it k v) k2 d = getNum it k2 d := by
  unfold getNum
  rw [lookupEntry_setEntry_other it k k2 v h]

theorem round2_mono {a b : ℚ} (h : a ≤ b) : round2 a ≤ round2 b := by
  unfold round2
  have h1 : (⌊a * 100 + 1 / 2⌋ : ℤ) ≤ ⌊b * 100 + 1 / 2⌋ :=
    Int.floor_le_floor (by linarith)
  have h2 : ((⌊a * 100 + 1 / 2⌋ : ℤ) : ℚ) ≤ ((⌊b * 100 + 1 / 2⌋ : ℤ) : ℚ) := by
    exact_mod_cast h1
  linarith

/-- C6 amended: for a GitHub item whose engagement sub-score has not
saturated, increasing `stars` (all other fields fixed) strictly increases
the weighted total that `_calculate_score` computes before rounding, and
weakly increases the rounded composite score.  (Strict increase of the
rounded score fails; see the counterexample.) -/
theorem ranking_monotonicity_amended (w : RankWeights) (parse : String → Option Int)
    (now : Int) (it : Item) (s1 s2 : ℚ)
    (hsrc : getStr it "source" "" = "github")
    (hstars : lookupEntry it "stars" = some (.vNum s1))
    (hlt : s1 < s2) (hsat : s1 / 100 < 10) (hw : 0 < w.engagement) :
    unroundedScore w parse now it
      < unroundedScore w parse now (setEntry it "stars" (.vNum s2))
    ∧ calcScore w parse now it
      ≤ calcScore w parse now (setEntry it "stars" (.vNum s2)) := by
  set it2 := setEntry it "stars" (.vNum s2) with hit2
  have hpub : getStr it2 "published" "" = getStr it "published" "" :=
    getStr_setEntry_other it "stars" "published" _ _ (by decide)
  have hrec : recencyScore parse now it2 = recencyScore parse now it := by
    simp only [recencyScore]
    rw [hpub]
  have hpri : sourcePriorityScore it2 = sourcePriorityScore it := by
    simp only [sourcePriorityScore]
    rw [getStr_setEntry_other it "stars" "source_priority" _ _ (by decide)]
  have hkw : rankKeywordScore it2 = rankKeywordScore it := by
    simp only [rankKeywordScore]
    rw [getNum_setEntry_other it "stars" "keyword_score" _ _ (by decide)]
  have hsrc2 : getStr it2 "source" "" = "github" := by
    rw [hit2, getStr_setEntry_other it "stars" "source" _ _ (by decide), hsrc]
  have hs1 : getNum it "stars" 0 = s1 := by
    unfold getNum
    rw [hstars]
  have hs2 : getNum it2 "stars" 0 = s2 := by
    unfold getNum
    rw [hit2, lookupEntry_setEntry_self]
  have heng1 : engagementScore it = s1 / 100 := by
    simp only [engagementScore]
    rw [hsrc, hs1]
    rw [if_neg (by decide : ¬ ("github" : String) = "hackernews"), if_pos rfl]
    exact min_eq_left (le_of_lt hsat)
  have heng2 : s1 / 100 < engagementScore it2 := by
    simp only [engagementScore]
    rw [hsrc2, hs2]
    rw [if_neg (by decide : ¬ ("github" : String) = "hackernews"), if_pos rfl]
    exact lt_min (by linarith) hsat
  have hstep : engagementScore it * w.engagement < engagementScore it2 * w.engagement :=
    mul_lt_mul_of_pos_right (heng1 ▸ heng2) hw
  have hmain : unroundedScore w parse now it < unroundedScore w parse now it2 := by
    simp only [unroundedScore]
    rw [hrec, hpri, hkw]
    linarith
  exact ⟨hmain, round2_mono (le_of_lt hmain)⟩

/-- Witness for the amended C6 at stars 1 vs 2 under the default weights. -/
theorem ranking_monotonicity_amended_witness :
    unroundedScore defaultWeights (fun _ => none) 0 ghItemOneStar
      < unroundedScore defaultWeights (fun _ => none) 0
          (setEntry ghItemOneStar "stars" (.vNum 2))
    ∧ calcScore defaultWeights (fun _ => none) 0 ghItemOneStar
      ≤ calcScore defaultWeights (fun _ => none) 0
          (setEntry ghItemOneStar "stars" (.vNum 2)) :=
  ranking_monotonicity_amended defaultWeights (fun _ => none) 0 ghItemOneStar 1 2
    rfl rfl (by norm_num) (by norm_num) (by norm_num [defaultWeights])

theorem analyzeLoop_preserves (gen : Nat → Prompt → Except String String) (content : String)
    (stages : List String) :
    ∀ i a s, s ∉ stages →
      lookupEntry (analyzeLoop gen content stages i a).stageResults s
        = lookupEntry a.stageResults s := by
  induction stages with
  | nil => intro i a s _; rfl
  | cons stage rest ih =>
      intro i a s hs
      have hne : s ≠ stage := fun h => hs (h ▸ List.mem_cons_self _ _)
      have hrest : s ∉ rest := fun h => hs (List.mem_cons_of_mem _ h)
      cases hrun : runStage gen i stage content a with
      | ok r =>
          simp only [analyzeLoop, hrun]
          rw [ih _ _ _ hrest]
          exact lookupEntry_setEntry_other _ _ _ _ hne
      | error e =>
          simp only [analyzeLoop, hrun]
          rw [ih _ _ _ hrest]
          exact lookupEntry_setEntry_other _ _ _ _ hne

theorem analyzeLoop_failed_extends (gen : Nat → Prompt → Except String String)
    (content : String) (stages : List String) :
    ∀ i a, ∃ tail, (analyzeLoop gen content stages i a).failed_stages
      = a.failed_stages ++ tail := by
  induction stages with
  | nil => intro i a; exact ⟨[], by simp [analyzeLoop]⟩
  | cons stage rest ih =>
      intro i a
      cases hrun : runStage gen i stage content a with
      | ok r =>
          obtain ⟨tail, ht⟩ := ih (i + 1)
            { a with stageResults := setEntry a.stageResults stage r,
                     completed_stages := a.completed_stages ++ [stage] }
          exact ⟨tail, by simp only [analyzeLoop, hrun]; exact ht⟩
      | error e =>
          obtain ⟨tail, ht⟩ := ih (i + 1)
            { a with stageResults := setEntry a.stageResults stage ("Error: " ++ e),
                     failed_stages := a.failed_stages ++ [stage] }
          refine ⟨[stage] ++ tail, ?_⟩
          simp only [analyzeLoop, hrun]
          rw [ht]
          simp

theorem analyzeLoop_unknown_stage (gen : Nat → Prompt → Except String String)
    (content : String) :
    ∀ (stages : List String) (k : Nat) (hk : k < stages.length) (i : Nat) (a : Analysis),
      stages.Nodup →
      templatePlaceholders (stages.get ⟨k, hk⟩) = none →
      lookupEntry (analyzeLoop gen content stages i a).stageResults (stages.get ⟨k, hk⟩)
        = some ("Error: " ++ ("Unknown prompt stage: " ++ stages.get ⟨k, hk⟩))
      ∧ stages.get ⟨k, hk⟩ ∈ (analyzeLoop gen content stages i a).failed_stages := by
  intro stages
  induction stages with
  | nil => intro k hk; exact absurd hk (by simp)
  | cons stage rest ih =>
      intro k hk i a hnd hunk
      cases k with
      | zero =>
          have hunk2 : templatePlaceholders stage = none := hunk
          have hrun : runStage gen i stage content a
              = .error ("Unknown prompt stage: " ++ stage) := by
            unfold runStage get_prompt
            rw [hunk2]
          have hloop : analyzeLoop gen content (stage :: rest) i a
              = analyzeLoop gen content rest (i + 1)
                  { a with stageResults := (setEntry a.stageResults stage ("Error: " ++ ("Unknown prompt stage: " ++ stage))), failed_stages := a.failed_stages ++ [stage] } := by
            simp only [analyzeLoop, hrun]
          have hnotin : stage ∉ rest := (List.nodup_cons.mp hnd).1
          have hget0 : (stage :: rest).get ⟨0, hk⟩ = stage := rfl
          constructor
          · rw [hget0, hloop, analyzeLoop_preserves gen content rest (i + 1) _ stage hnotin]
            exact lookupEntry_setEntry_self _ _ _
          · obtain ⟨tail, htail⟩ := analyzeLoop_failed_extends gen content rest (i + 1)
              { a with stageResults := (setEntry a.stageResults stage ("Error: " ++ ("Unknown prompt stage: " ++ stage))), failed_stages := a.failed_stages ++ [stage] }
            rw [hget0, hloop, htail]
            simp
      | succ k2 =>
          have hk2 : k2 < rest.length := by simpa using hk
          have hget : (stage :: rest).get ⟨k2 + 1, hk⟩ = rest.get ⟨k2, hk2⟩ := rfl
          cases hrun : runStage gen i stage content a with
          | ok r =>
              have h := ih k2 hk2 (i + 1)
                { a with stageResults := setEntry a.stageResults stage r,
                         completed_stages := a.completed_stages ++ [stage] }
                (List.nodup_cons.mp hnd).2 (hget ▸ hunk)
              rw [hget]
              simpa only [analyzeLoop, hrun] using h
          | error e =>
              have h := ih k2 hk2 (i + 1)
                { a with stageResults := setEntry a.stageResults stage ("Error: " ++ e),
                         failed_stages := a.failed_stages ++ [stage] }
                (List.nodup_cons.mp hnd).2 (hget ▸ hunk)
              rw [hget]
              simpa only [analyzeLoop, hrun] using h

/-- C2 amended: for an unknown stage name that is not one of the analysis
dict's bookkeeping keys, the `ValueError` that `get_prompt` raises
propagates out of `_run_stage` but is caught by the per-stage
`except Exception` handler in `analyze`: the unknown stage is recorded in
`failed_stages` with the error placeholder `"Error: Unknown prompt stage:
<name>"`, and `analyze` returns normally (with `success = False`) instead
of raising to its caller.  (A stage named like a bookkeeping key collides
with the source's single analysis dict and is outside this statement's
scope.) -/
theorem unknown_stage_caught (stages : List String)
    (gen : Nat → Prompt → Except String String) (item : Item) (k : Nat)
    (hk : k < stages.length) (hnd : stages.Nodup)
    (hunk : templatePlaceholders (stages.get ⟨k, hk⟩) = none)
    (hnb : stages.get ⟨k, hk⟩ ∉ analysisBookkeepingKeys) :
    lookupEntry (analyze stages gen item).stageResults (stages.get ⟨k, hk⟩)
      = some ("Error: " ++ ("Unknown prompt stage: " ++ stages.get ⟨k, hk⟩))
    ∧ stages.get ⟨k, hk⟩ ∈ (analyze stages gen item).failed_stages
    ∧ (analyze stages gen item).success = false := by
  obtain ⟨h1, h2⟩ := analyzeLoop_unknown_stage gen (prepareContent item) stages k hk 1
    (initAnalysis item) hnd hunk
  refine ⟨h1, h2, ?_⟩
  show (analyzeLoop gen (prepareContent item) stages 1 (initAnalysis item)).failed_stages.isEmpty = false
  cases hcase : (analyzeLoop gen (prepareContent item) stages 1
      (initAnalysis item)).failed_stages with
  | nil => exact absurd (hcase ▸ h2) (List.not_mem_nil _)
  | cons x xs => rfl

/-- Counterexample to C2 as stated: with the single configured stage
`bogus_stage` (unknown to `get_prompt`), `analyze` does **not** propagate
the configuration error — it returns normally, with the unknown stage
converted into a per-stage `"Error: Unknown prompt stage: ..."` entry and
listed in `failed_stages`. -/
theorem unknown_stage_fatal_counterexample :
    (analyze ["bogus_stage"] genOkW []).failed_stages = ["bogus_stage"]
    ∧ lookupEntry (analyze ["bogus_stage"] genOkW []).stageResults "bogus_stage"
      = some ("Error: " ++ ("Unknown prompt stage: " ++ "bogus_stage"))
    ∧ (analyze ["bogus_stage"] genOkW []).success = false :=
  ⟨rfl, rfl, rfl⟩

/-- Witness for the amended C2: a known stage followed by an unknown one;
the unknown stage's `ValueError` ends up as its per-stage error entry. -/
theorem unknown_stage_caught_witness :
    lookupEntry (analyze ["fact_extraction", "bogus_stage"] genOkW []).stageResults
        "bogus_stage"
      = some ("Error: " ++ ("Unknown prompt stage: " ++ "bogus_stage"))
    ∧ "bogus_stage" ∈ (analyze ["fact_extraction", "bogus_stage"] genOkW []).failed_stages := by
  have h := unknown_stage_caught ["fact_extraction", "bogus_stage"] genOkW [] 1
    (by decide) (by decide) rfl (by decide)
  exact ⟨h.1, h.2.1⟩

/-- C3 amended: in `_run_stage`, exactly the stages `blog_synthesis` and
`linkedin_formatting` build their prompt from the formatted concatenation
of the four prior-stage outputs (each present non-empty key rendered under
a `## <Title Case>` heading with a blank line after it), and their kwargs
carry no raw-content argument.  (`medium_synthesis` is **not** in that
list; see the counterexample.) -/
theorem synthesis_prompt_from_formatted_analysis (stage content : String) (prev : Analysis)
    (hstage : stage = "blog_synthesis" ∨ stage = "linkedin_formatting")
    (v1 v2 v3 v4 : String)
    (h1 : lookupEntry prev.stageResults "fact_extraction" = some v1) (hne1 : v1 ≠ "")
    (h2 : lookupEntry prev.stageResults "engineer_summary" = some v2) (hne2 : v2 ≠ "")
    (h3 : lookupEntry prev.stageResults "impact_analysis" = some v3) (hne3 : v3 ≠ "")
    (h4 : lookupEntry prev.stageResults "application_mapping" = some v4) (hne4 : v4 ≠ "") :
    get_prompt stage (buildStageKwargs stage content prev)
      = .ok (stage, [("title", pyShow prev.title), ("url", pyShow prev.url),
          ("analyzed_content", formatAnalysis prev)])
    ∧ lookupEntry (buildStageKwargs stage content prev) "content" = none
    ∧ formatAnalysis prev
      = joinLines ["## Fact Extraction", v1, "", "## Engineer Summary", v2, "",
          "## Impact Analysis", v3, "", "## Application Mapping", v4, ""] := by
  have hkw : buildStageKwargs stage content prev
      = [("title", pyShow prev.title), ("url", pyShow prev.url),
         ("analyzed_content", formatAnalysis prev)] := by
    unfold buildStageKwargs
    rw [if_pos hstage]
  refine ⟨?_, ?_, ?_⟩
  · rcases hstage with h | h <;> subst h <;> rw [hkw] <;> rfl
  · rw [hkw]; rfl
  · simp only [formatAnalysis, analysisKeys, List.foldl, h1, h2, h3, h4,
      if_neg hne1, if_neg hne2, if_neg hne3, if_neg hne4]
    rfl

/-- Counterexample to C3 as stated: a `medium_synthesis` stage run through
`_run_stage` takes the raw-content branch — its kwargs are
`[('content', <raw item text>)]` with no `analyzed_content` — and the
subsequent `template.format` call fails on the template's `title`
placeholder (the stage only receives the formatted analysis via
`analyze_for_medium`, not via `_run_stage`). -/
theorem medium_synthesis_raw_branch_counterexample :
    buildStageKwargs "medium_synthesis" "RAW ITEM TEXT" analysisW
      = [("content", "RAW ITEM TEXT")]
    ∧ lookupEntry (buildStageKwargs "medium_synthesis" "RAW ITEM TEXT" analysisW)
        "analyzed_content" = none
    ∧ runStage genOkW 1 "medium_synthesis" "RAW ITEM TEXT" analysisW
      = .error ("KeyError: " ++ "title") :=
  ⟨rfl, rfl, rfl⟩

/-- Witness for the amended C3 on a concrete accumulated analysis. -/
theorem synthesis_prompt_witness :
    get_prompt "blog_synthesis" (buildStageKwargs "blog_synthesis" "RAW" analysisW)
      = .ok ("blog_synthesis", [("title", "Some paper"), ("url", "http://x/p"),
          ("analyzed_content", formatAnalysis analysisW)])
    ∧ formatAnalysis analysisW
      = joinLines ["## Fact Extraction", "F out", "", "## Engineer Summary", "E out", "",
          "## Impact Analysis", "I out", "", "## Application Mapping", "A out", ""] := by
  have h := synthesis_prompt_from_formatted_analysis "blog_synthesis" "RAW" analysisW
    (Or.inl rfl) "F out" "E out" "I out" "A out" rfl (by decide) rfl (by decide)
    rfl (by decide) rfl (by decide)
  refine ⟨?_, h.2.2⟩
  rw [h.1]
  rfl

theorem basicValidation_fields (plist : List String) (content : String) :
    lookupEntry (basicValidation plist content) "is_valid"
      = some (.jBool (decide (70 ≤ basicRawScore plist content)))
    ∧ lookupEntry (basicValidation plist content) "validation_score"
      = some (.jInt (max 0 (basicRawScore plist content)))
    ∧ (∃ issues : List Issue, lookupEntry (basicValidation plist content) "issues"
        = some (.jIssues issues) ∧ issues.length = basicIssueCount plist content)
    ∧ lookupEntry (basicValidation plist content) "approved"
      = some (.jBool (decide (70 ≤ basicRawScore plist content)))
    ∧ (lookupEntry (basicValidation plist content) "summary").isSome = true := by
  cases hprof : foundProfanity plist content with
  | none =>
      by_cases hlen : 300 < pyWordCount content <;>
        by_cases hcit : hasCitation content.data <;>
          simp [basicValidation, basicRawScore, basicIssueCount, lookupEntry,
            hprof, hlen, hcit]
  | some w =>
      by_cases hlen : 300 < pyWordCount content <;>
        by_cases hcit : hasCitation content.data <;>
          simp [basicValidation, basicRawScore, basicIssueCount, lookupEntry,
            hprof, hlen, hcit]

/-- C8. Validation fallback: whenever the LLM response cannot be parsed as
JSON (the generate call failed, the response holds no JSON region, or
`json.loads` failed), `validate_linkedin_safety` returns exactly
`_basic_validation`'s dict, which carries all five schema keys; its score
starts at 100 with a deduction per detected issue, the reported
`validation_score` is clamped at 0, and `approved` (and `is_valid`) hold
iff the score is at least 70. -/
theorem validation_fallback (plist : List String) (content : String)
    (genResult : Except String String)
    (jsonParse : String → Option (List (String × JVal)))
    (hfb : fallbackTaken genResult jsonParse) :
    validateLinkedInSafety plist genResult jsonParse content = basicValidation plist content
    ∧ (∀ key ∈ (["is_valid", "validation_score", "issues", "approved", "summary"] :
          List String),
        (lookupEntry (basicValidation plist content) key).isSome = true)
    ∧ lookupEntry (basicValidation plist content) "validation_score"
      = some (.jInt (max 0 (basicRawScore plist content)))
    ∧ lookupEntry (basicValidation plist content) "approved"
      = some (.jBool (decide (70 ≤ basicRawScore plist content)))
    ∧ lookupEntry (basicValidation plist content) "is_valid"
      = some (.jBool (decide (70 ≤ basicRawScore plist content)))
    ∧ (∃ issues : List Issue, lookupEntry (basicValidation plist content) "issues"
        = some (.jIssues issues) ∧ issues.length = basicIssueCount plist content)
    ∧ 0 ≤ max 0 (basicRawScore plist content) := by
  have hmain : validateLinkedInSafety plist genResult jsonParse content
      = basicValidation plist content := by
    unfold validateLinkedInSafety
    cases genResult with
    | error e => rfl
    | ok response =>
        cases hext : extractJsonRegion response with
        | none => simp only [hext]
        | some jstr =>
            have hnone : jsonParse jstr = none := by
              have hfb2 : (match extractJsonRegion response with
                  | some jstr => jsonParse jstr = none
                  | none => True) := hfb
              rw [hext] at hfb2
              exact hfb2
            simp only [hext, hnone]
  obtain ⟨f1, f2, f3, f4, f5⟩ := basicValidation_fields plist content
  refine ⟨hmain, ?_, f2, f4, f1, f3, le_max_left 0 _⟩
  intro key hkey
  have hcases : key = "is_valid" ∨ key = "validation_score" ∨ key = "issues"
      ∨ key = "approved" ∨ key = "summary" := by simpa using hkey
  rcases hcases with h | h | h | h | h <;> subst h
  · rw [f1]; rfl
  · rw [f2]; rfl
  · obtain ⟨iss, hiss, _⟩ := f3
    rw [hiss]; rfl
  · rw [f4]; rfl
  · exact f5

/-- Witness for C8: a response with no JSON region falls back to the basic
validator; the sample content trips the profanity and citation checks
(score 65), so approval is denied. -/
theorem validation_fallback_witness :
    validateLinkedInSafety profListW (Except.ok "no json here") (fun _ => none) contentW8
      = basicValidation profListW contentW8
    ∧ lookupEntry (basicValidation profListW contentW8) "approved"
      = some (.jBool false) := by
  have hfb : fallbackTaken (Except.ok "no json here") (fun _ => none) := trivial
  have h := validation_fallback profListW contentW8 (Except.ok "no json here")
    (fun _ => none) hfb
  refine ⟨h.1, ?_⟩
  rw [h.2.2.2.1, show basicRawScore profListW contentW8 = 65 from rfl]
  rfl
